import Mathlib

/-!
Verification of the FDRS planning kernel (modules/cluster_state.py,
modules/load_evaluator.py, modules/constraint_manager.py,
modules/migration_planner.py) against its natural-language specification.

The Python code is shallowly embedded: vSphere managed objects become plain
records, Python dicts with string keys and numeric values become association
lists read through a `.get`-style lookup with a default, Python floats become
rationals (every arithmetic operation appearing in the modelled code is exact
division / addition / comparison on small decimal inputs), and Python
exceptions become `Except PyErr`.  Two aspects of Python's dynamic semantics
matter for this repository and are modelled explicitly:

* calling a function with a keyword argument that is not among its declared
  parameters raises `TypeError`; the parameter-name lists below are copied
  from the `def` lines of the source;
* reading a missing attribute (here: a method the class does not define)
  raises `AttributeError`; the method-name list of `ClusterState` below is
  copied from the `def` lines of modules/cluster_state.py.
-/

namespace FDRS

/-- Python exceptions that the embedded code can raise.
`typeError fn kw` models `TypeError: fn() got an unexpected keyword
argument kw`; `attributeError obj attr` models
`AttributeError: obj object has no attribute attr`. -/
inductive PyErr where
  | typeError (fn kw : String)
  | attributeError (obj attr : String)
deriving Repr, DecidableEq

/-- Python call semantics for keyword arguments: if any keyword of the call
site is not a declared parameter name, the call raises `TypeError` (naming the
first such keyword, in call-site order) and the body never runs. -/
def pyCallKw {A : Type} (fname : String) (params kwargs : List String)
    (body : Except PyErr A) : Except PyErr A :=
  match kwargs.find? (fun k => !(params.contains k)) with
  | some bad => Except.error (PyErr.typeError fname bad)
  | none => body

/-- `d.get k default` on a Python dict with string keys and float values. -/
def pyGetQ (d : List (String × ℚ)) (k : String) (dflt : ℚ) : ℚ :=
  match d.lookup k with
  | some v => v
  | none => dflt

/-- `d.get k default` on a Python dict with arbitrary values. -/
def lookupD {A : Type} (d : List (String × A)) (k : String) (dflt : A) : A :=
  match d.lookup k with
  | some v => v
  | none => dflt

/-- An ESXi host managed object as kept by `ClusterState._get_all_hosts`
(only connected hosts are kept; every kept host carries its `name`). -/
structure HostObj where
  name : String
deriving Repr, DecidableEq

/-- A virtual machine managed object as kept by `ClusterState._get_all_vms`
(powered-on, with `vm.runtime.host` either a host object or missing, a
`config.template` flag, and the `summary.quickStats` counters that
`annotate_vms_with_metrics` reads). -/
structure VMObj where
  name : String
  runtimeHost : Option HostObj
  isTemplate : Bool := false
  overallCpuUsage : ℚ := 0
  guestMemoryUsage : ℚ := 0
deriving Repr, DecidableEq

/-- The Python values that get compared by `==` inside
`ClusterState.get_vms_on_host`: the result of `get_host_of_vm` (a host
managed object or `None`) on the left, and `host_object.name` (a `str`) on
the right. -/
inductive PyVal where
  | pyNone
  | pyStr (s : String)
  | pyHost (h : HostObj)
deriving Repr, DecidableEq

/-- Python `==` on the values above.  Values of different runtime types
compare unequal: `None == str` is `False`, and a pyVmomi managed object
compared with a `str` falls back to identity comparison, which is `False`. -/
def pyEq : PyVal → PyVal → Bool
  | PyVal.pyStr a, PyVal.pyStr b => a == b
  | PyVal.pyHost a, PyVal.pyHost b => a == b
  | PyVal.pyNone, PyVal.pyNone => true
  | _, _ => false

/-- `ClusterState.get_host_of_vm` (cluster_state.py:91-104): returns
`vm.runtime.host` — the host object itself — when present, else `None`. -/
def get_host_of_vm (vm : VMObj) : Option HostObj :=
  vm.runtimeHost

/-- The Python value of `self.get_host_of_vm(vm_obj)` as an operand of `==`. -/
def hostRefVal : Option HostObj → PyVal
  | none => PyVal.pyNone
  | some h => PyVal.pyHost h

/-- `ClusterState.get_vms_on_host` (cluster_state.py:204-208):
`[vm for vm in self.vms if self.get_host_of_vm(vm) == host_object.name]`.
Note the left operand is a host object (or `None`) and the right operand is a
string. -/
def get_vms_on_host (vms : List VMObj) (host : HostObj) : List VMObj :=
  vms.filter (fun vm => pyEq (hostRefVal (get_host_of_vm vm)) (PyVal.pyStr host.name))

/-- `ClusterState.annotate_vms_with_metrics` (cluster_state.py:106-137):
maps each VM name to its absolute metrics dict.  CPU and memory come from
`vm.summary.quickStats` (`or 0` is absorbed into the fields, which default to
0); disk and network I/O come from `ResourceMonitor.get_vm_metrics`, passed
in here as the functions `rmDisk`/`rmNet`.  The `vm_obj` entry of the Python
dict holds the managed object, not a number, and is not part of the numeric
dict modelled here. -/
def annotate_vms_with_metrics (vms : List VMObj) (rmDisk rmNet : String → ℚ) :
    List (String × List (String × ℚ)) :=
  vms.map (fun vm =>
    (vm.name,
      [("cpu_usage_abs", vm.overallCpuUsage),
       ("memory_usage_abs", vm.guestMemoryUsage),
       ("disk_io_usage_abs", rmDisk vm.name),
       ("network_io_usage_abs", rmNet vm.name)]))

/-- `ClusterState.annotate_hosts_with_metrics` (cluster_state.py:139-202):
for each host, capacities are read from `ResourceMonitor.get_host_metrics`
(passed in as `rmHost`), and the four usage fields are the sums of the
corresponding `*_abs` VM metrics over `get_vms_on_host(host)`.  `vmMetrics`
models `self.vm_metrics` as populated by `annotate_vms_with_metrics`.  The
`vms` and `host_obj` entries of the Python dict are not numeric and are not
modelled. -/
def annotate_hosts_with_metrics (vms : List VMObj) (hosts : List HostObj)
    (vmMetrics : List (String × List (String × ℚ)))
    (rmHost : String → List (String × ℚ)) :
    List (String × List (String × ℚ)) :=
  hosts.map (fun host =>
    let rm := rmHost host.name
    let onHost := get_vms_on_host vms host
    let vmsOf := fun (k : String) =>
      (onHost.map (fun v => pyGetQ (lookupD vmMetrics v.name []) k 0)).sum
    let cpuSum := vmsOf "cpu_usage_abs"
    let memSum := vmsOf "memory_usage_abs"
    let diskSum := vmsOf "disk_io_usage_abs"
    let netSum := vmsOf "network_io_usage_abs"
    let cpuCap := pyGetQ rm "cpu_capacity" 0
    let memCap := pyGetQ rm "memory_capacity" 0
    (host.name,
      [("cpu_usage", cpuSum),
       ("memory_usage", memSum),
       ("disk_io_usage", diskSum),
       ("network_io_usage", netSum),
       ("cpu_capacity", cpuCap),
       ("memory_capacity", memCap),
       ("disk_io_capacity", pyGetQ rm "disk_io_capacity" 1),
       ("network_capacity", pyGetQ rm "network_capacity" 1),
       ("cpu_usage_pct", if cpuCap > 0 then cpuSum / cpuCap * 100 else 0),
       ("memory_usage_pct", if memCap > 0 then memSum / memCap * 100 else 0)]))

/-! ## LoadEvaluator (modules/load_evaluator.py) -/

/-- `LoadEvaluator.get_resource_percentage_lists` (load_evaluator.py:9-48),
restricted to the case where `self.hosts` is a list of dicts (as produced by
`ClusterState.get_cluster_state`): per host, `usage / capacity * 100` when the
capacity is positive, else 0, for each of the four resources. -/
def get_resource_percentage_lists (hostsData : List (List (String × ℚ))) :
    List ℚ × List ℚ × List ℚ × List ℚ :=
  let pct := fun (uk ck : String) (d : List (String × ℚ)) =>
    let u := pyGetQ d uk 0
    let c := pyGetQ d ck 0
    if c > 0 then u / c * 100 else 0
  (hostsData.map (pct "cpu_usage" "cpu_capacity"),
   hostsData.map (pct "memory_usage" "memory_capacity"),
   hostsData.map (pct "disk_io_usage" "disk_io_capacity"),
   hostsData.map (pct "network_io_usage" "network_capacity"))

/-- `LoadEvaluator.get_thresholds` (load_evaluator.py:50-70): the
aggressiveness → percentage-point threshold table, defaulting to 15 for
unknown levels; the same value is used for all four resources. -/
def get_thresholds (aggressiveness : Int) : ℚ :=
  if aggressiveness = 5 then 5
  else if aggressiveness = 4 then 10
  else if aggressiveness = 3 then 15
  else if aggressiveness = 2 then 20
  else if aggressiveness = 1 then 25
  else 15

/-- Python `max` of a nonempty list (0 for the empty list, which the callers
below never reach without a guard). -/
def qListMax : List ℚ → ℚ
  | [] => 0
  | x :: xs => xs.foldl max x

/-- Python `min` of a nonempty list. -/
def qListMin : List ℚ → ℚ
  | [] => 0
  | x :: xs => xs.foldl min x

/-- `LoadEvaluator.evaluate_imbalance` (load_evaluator.py:72-112).  Note its
actual signature and result: parameters `(self, metrics_to_check=None,
aggressiveness=3)` and a single boolean `imbalance_found` — not a map of
per-resource detail records, and no override parameters. -/
def evaluate_imbalance (hostsData : List (List (String × ℚ)))
    (metrics_to_check : Option (List String)) (aggressiveness : Int) : Bool :=
  let (cpuP, memP, diskP, netP) := get_resource_percentage_lists hostsData
  let allMetrics : List (String × List ℚ) :=
    [("cpu", cpuP), ("memory", memP), ("disk", diskP), ("network", netP)]
  let toCheck := metrics_to_check.getD ["cpu", "memory", "disk", "network"]
  let threshold := get_thresholds aggressiveness
  toCheck.any (fun rname =>
    let ps := lookupD allMetrics rname []
    if ps.length < 2 then false
    else qListMax ps - qListMin ps > threshold)

/-- The parameter names of `LoadEvaluator.evaluate_imbalance`
(load_evaluator.py:72). -/
def evaluate_imbalance_param_names : List String :=
  ["self", "metrics_to_check", "aggressiveness"]

/-- The call `self.load_evaluator.evaluate_imbalance(aggressiveness=...,
cpu_percentages_override=..., mem_percentages_override=...,
disk_percentages_override=..., net_percentages_override=...)` issued by
`MigrationManager._plan_balancing_migrations` (migration_planner.py:512-518),
under Python keyword-argument semantics. -/
def call_evaluate_imbalance_with_overrides
    (hostsData : List (List (String × ℚ))) (aggressiveness : Int) :
    Except PyErr Bool :=
  pyCallKw "evaluate_imbalance" evaluate_imbalance_param_names
    ["aggressiveness", "cpu_percentages_override", "mem_percentages_override",
     "disk_percentages_override", "net_percentages_override"]
    (Except.ok (evaluate_imbalance hostsData none aggressiveness))

/-! ## ConstraintManager (modules/constraint_manager.py) -/

/-- `vm.name.rstrip('0123456789')`: strip trailing decimal digits. -/
def rstripDigits (s : String) : String :=
  String.mk ((s.toList.reverse.dropWhile (fun c => c.isDigit)).reverse)

/-- Append `vm` to the entry of key `k` in an insertion-ordered dict of
lists, creating the entry at the end when the key is new (Python
`dict`/`setdefault` behaviour of `enforce_anti_affinity`). -/
def assocAppend (d : List (String × List VMObj)) (k : String) (vm : VMObj) :
    List (String × List VMObj) :=
  match d with
  | [] => [(k, [vm])]
  | (k', l) :: rest =>
    if k' = k then (k', l ++ [vm]) :: rest
    else (k', l) :: assocAppend rest k vm

/-- `ConstraintManager.enforce_anti_affinity` (constraint_manager.py:11-40):
group VMs by `name.rstrip('0123456789')` (falling back to the full name when
stripping empties it), skipping VMs whose name is shorter than 3 characters. -/
def enforce_anti_affinity (vms : List VMObj) : List (String × List VMObj) :=
  vms.foldl (fun dist vm =>
    if vm.name.length < 3 then dist
    else
      let namePart := rstripDigits vm.name
      let shortName := if namePart.isEmpty then vm.name else namePart
      assocAppend dist shortName vm) []

/-- The insertion-ordered key list of the dict
`{host.name: 0 for host in active_hosts}` (duplicate names collapse onto the
first occurrence). -/
def hostNameKeys (hosts : List HostObj) : List String :=
  (hosts.map (fun h => h.name)).dedup

/-- The host name `vm.runtime.host.name` of a VM, when it has one. -/
def vmHostName (vm : VMObj) : Option String :=
  match get_host_of_vm vm with
  | some h => some h.name
  | none => none

/-- The value `host_vm_counts[n]` after the counting loops of
`calculate_anti_affinity_violations` / `get_preferred_host_for_vm`: the
number of VMs of `group` whose current host name is `n` (only keys of the
active-host dict are ever incremented). -/
def groupCount (group : List VMObj) (n : String) : Int :=
  ((group.filter (fun vm => vmHostName vm = some n)).length : Int)

/-- `host_vm_counts.get(n, dflt)`. -/
def groupCountGet (hosts : List HostObj) (group : List VMObj) (n : String)
    (dflt : Int) : Int :=
  if n ∈ hostNameKeys hosts then groupCount group n else dflt

/-- The current group count of a host name, as both selection passes of
`get_preferred_host_for_vm` read it (`current_host_group_counts.get(name,
0)`). -/
def currentCountOf (hosts : List HostObj) (group : List VMObj) (n : String) :
    Int :=
  groupCountGet hosts group n 0

/-- Python `max` of a nonempty list of ints. -/
def intListMax : List Int → Int
  | [] => 0
  | x :: xs => xs.foldl max x

/-- Python `min` of a nonempty list of ints. -/
def intListMin : List Int → Int
  | [] => 0
  | x :: xs => xs.foldl min x

/-- `vms_on_hosts_map[n]` for a group: its VMs currently on the active host
named `n`, in group order. -/
def vmsOnHostOfGroup (group : List VMObj) (n : String) : List VMObj :=
  group.filter (fun vm => vmHostName vm = some n)

/-- `actual_counts_for_active_hosts` (constraint_manager.py:77): the per-host
group counts listed per entry of `active_hosts` whose name is a dict key
(every name is). -/
def groupCountsList (hosts : List HostObj) (group : List VMObj) : List Int :=
  (hosts.filter (fun h => h.name ∈ hostNameKeys hosts)).map
    (fun h => groupCount group h.name)

/-- `current_group_vms_on_hosts` (constraint_manager.py:65-71): how many of
the group's VMs sit on an active (dict-keyed) host. -/
def groupOnHostsCount (hosts : List HostObj) (group : List VMObj) : Nat :=
  (group.filter (fun vm =>
    match vmHostName vm with
    | some n => n ∈ hostNameKeys hosts
    | none => false)).length

/-- The contribution of one prefix group to `all_violations`
(constraint_manager.py:58-90): when the group's per-host counts differ by
more than 1, the group's VMs on every host whose count equals the maximum,
in dict-key order. -/
def groupViolations (hosts : List HostObj) (group : List VMObj) : List VMObj :=
  if group.isEmpty then []
  else if groupOnHostsCount hosts group = 0 then []
  else if (groupCountsList hosts group).isEmpty then []
  else if intListMax (groupCountsList hosts group)
        - intListMin (groupCountsList hosts group) > 1 then
    (hostNameKeys hosts).flatMap (fun n =>
      if groupCount group n = intListMax (groupCountsList hosts group) then
        vmsOnHostOfGroup group n
      else [])
  else []

/-- `ConstraintManager.calculate_anti_affinity_violations`
(constraint_manager.py:42-94): with fewer than 2 active hosts the result is
`[]`; otherwise the per-group violating VMs are collected and de-duplicated
(`list(set(...))`, whose ordering Python leaves unspecified; modelled as
`List.dedup`). -/
def calculate_anti_affinity_violations (dist : List (String × List VMObj))
    (hosts : List HostObj) : List VMObj :=
  if hosts.length ≤ 1 then []
  else
    (dist.flatMap (fun e => groupViolations hosts e.2)).dedup

/-- The simulated per-host group count read back for host name `n` after
`_find_perfect_balance_host` moves the VM from `srcName` to `tgtName`
(constraint_manager.py:172-175): the current counts with
`simulated[src] = simulated.get(src, 1) - 1` and
`simulated[tgt] = simulated.get(tgt, 0) + 1` applied (the target is never the
source at this point). -/
def simulatedCount (hosts : List HostObj) (group : List VMObj)
    (srcName tgtName n : String) : Int :=
  if n = tgtName then groupCountGet hosts group n 0 + 1
  else if n = srcName then groupCountGet hosts group n 1 - 1
  else groupCountGet hosts group n 0

/-- `sim_counts_values` (constraint_manager.py:177): the simulated counts
listed per entry of `active_hosts`.  Every active host's name is a key of the
simulated dict (it holds all active-host names, plus possibly the source). -/
def simulatedCountsList (hosts : List HostObj) (group : List VMObj)
    (srcName tgtName : String) : List Int :=
  hosts.map (fun h => simulatedCount hosts group srcName tgtName h.name)

/-- Whether a target host qualifies in the perfect-balance pass: moving the
VM there leaves the group's simulated per-host counts within 1 of each other
across all active hosts (constraint_manager.py:165-184). -/
def perfectBalanceOk (hosts : List HostObj) (group : List VMObj)
    (srcName : String) (tgt : HostObj) : Bool :=
  let vals := simulatedCountsList hosts group srcName tgt.name
  if vals.isEmpty then false
  else intListMax vals - intListMin vals ≤ 1

/-- `perfect_balance_candidates` (constraint_manager.py:163-184): the active
hosts other than the source that pass the simulation check, in
`active_hosts` order. -/
def perfect_balance_candidates (hosts : List HostObj) (group : List VMObj)
    (srcName : String) : List HostObj :=
  hosts.filter (fun t => t.name ≠ srcName && perfectBalanceOk hosts group srcName t)

/-- One step of the selection loop shared by both passes
(constraint_manager.py:186-200 and 219-231): keep the candidate with the
strictly lowest count seen so far (the initial bound is `float('inf')`,
modelled by the `none` accumulator); on an equal count, prefer the
lexicographically smaller host name. -/
def selectStep (cnt : String → Int) (best : Option HostObj) (c : HostObj) :
    Option HostObj :=
  match best with
  | none => some c
  | some b =>
    if cnt c.name < cnt b.name then some c
    else if cnt c.name = cnt b.name && c.name < b.name then some c
    else best

/-- The full selection loop over a candidate list. -/
def selectLowestCount (cands : List HostObj) (cnt : String → Int) :
    Option HostObj :=
  cands.foldl (selectStep cnt) none

/-- `ConstraintManager._find_perfect_balance_host`
(constraint_manager.py:157-202). -/
def find_perfect_balance_host (hosts : List HostObj) (group : List VMObj)
    (srcName : String) : Option HostObj :=
  selectLowestCount (perfect_balance_candidates hosts group srcName)
    (currentCountOf hosts group)

/-- One step of the fallback loop of
`ConstraintManager._find_better_than_source_host`
(constraint_manager.py:212-231): skip the source, require a group count
strictly below the source's (`counts.get(source, float('inf'))`, modelled as
`WithTop Int`), then run the lowest-count/lexicographic selection. -/
def betterThanSourceStep (hosts : List HostObj) (group : List VMObj)
    (srcName : String) (srcCount : WithTop Int) (best : Option HostObj)
    (t : HostObj) : Option HostObj :=
  if t.name = srcName then best
  else
    if ((groupCountGet hosts group t.name 0 : Int) : WithTop Int) < srcCount then
      match best with
      | none => some t
      | some b =>
        if groupCountGet hosts group t.name 0
            < groupCountGet hosts group b.name 0 then some t
        else if groupCountGet hosts group t.name 0
            = groupCountGet hosts group b.name 0 && t.name < b.name then some t
        else best
    else best

/-- `ConstraintManager._find_better_than_source_host`
(constraint_manager.py:204-237). -/
def find_better_than_source_host (hosts : List HostObj) (group : List VMObj)
    (srcName : String) (srcCount : WithTop Int) : Option HostObj :=
  hosts.foldl (betterThanSourceStep hosts group srcName srcCount) none

/-- `source_host_group_count = current_host_group_counts.get(source_host_name,
float('inf'))` (constraint_manager.py:148). -/
def sourceCountOf (hosts : List HostObj) (group : List VMObj)
    (srcName : String) : WithTop Int :=
  if srcName ∈ hostNameKeys hosts then ((groupCount group srcName : Int) : WithTop Int)
  else ⊤

/-- `ConstraintManager.get_preferred_host_for_vm`
(constraint_manager.py:96-155), as its body actually reads: parameters
`(self, vm_to_move)` only.  `dist` models `self.vm_distribution`; when empty
it is repopulated from the cluster's VMs by `enforce_anti_affinity`. -/
def get_preferred_host_for_vm (dist : List (String × List VMObj))
    (vms : List VMObj) (hosts : List HostObj) (vm : VMObj) : Option HostObj :=
  if vm.name.length < 3 then none
  else
    let vmPfx := vm.name.dropRight 2
    let distUsed := if dist.isEmpty then enforce_anti_affinity vms else dist
    if distUsed.isEmpty then none
    else
      let group := lookupD distUsed vmPfx []
      if group.isEmpty then none
      else
        match get_host_of_vm vm with
        | none => none
        | some src =>
          if hosts.length ≤ 1 then none
          else
            match find_perfect_balance_host hosts group src.name with
            | some t => some t
            | none =>
              find_better_than_source_host hosts group src.name
                (sourceCountOf hosts group src.name)

/-- The parameter names of `ConstraintManager.get_preferred_host_for_vm`
(constraint_manager.py:96). -/
def get_preferred_host_param_names : List String :=
  ["self", "vm_to_move"]

/-- The call `self.constraint_manager.get_preferred_host_for_vm(vm_obj,
planned_migrations_this_cycle=aa_migrations_planned_this_step)` issued by
`MigrationManager._plan_anti_affinity_migrations`
(migration_planner.py:479-482), under Python keyword-argument semantics. -/
def call_get_preferred_host_with_planned (dist : List (String × List VMObj))
    (vms : List VMObj) (hosts : List HostObj) (vm : VMObj) :
    Except PyErr (Option HostObj) :=
  pyCallKw "get_preferred_host_for_vm" get_preferred_host_param_names
    ["planned_migrations_this_cycle"]
    (Except.ok (get_preferred_host_for_vm dist vms hosts vm))

/-! ## MigrationManager (modules/migration_planner.py) -/

/-- The methods `class ClusterState` defines (the `def` lines of
modules/cluster_state.py).  `get_host_by_name` is not among them. -/
def clusterState_method_names : List String :=
  ["__init__", "_get_all_vms", "_get_all_hosts", "get_cluster_state",
   "get_host_of_vm", "annotate_vms_with_metrics", "annotate_hosts_with_metrics",
   "get_vms_on_host", "get_vm_by_name", "log_cluster_stats", "update_metrics"]

/-- Reading the attribute `attr` on a `ClusterState` instance: methods the
class defines resolve, anything else raises `AttributeError`. -/
def clusterStateGetAttr (attr : String) : Except PyErr Unit :=
  if attr ∈ clusterState_method_names then Except.ok ()
  else Except.error (PyErr.attributeError "ClusterState" attr)

/-- `planned_vm_locations.get(n)` after the loop of migration_planner.py:
164-168 (a later plan entry for the same VM overwrites an earlier one). -/
def plannedLocationOf (planned : List (VMObj × HostObj)) (n : String) :
    Option String :=
  ((planned.map (fun p => (p.1.name, p.2.name))).reverse).lookup n

/-- The hypothetical host of a group member in
`MigrationManager._is_anti_affinity_safe` (migration_planner.py:170-188):
the checked target for the VM being moved, the planned target for a VM
already planned this cycle, else its current host. -/
def finalHostNameFor (vm : VMObj) (target : HostObj)
    (planned : List (VMObj × HostObj)) (w : VMObj) : Option String :=
  if w.name = vm.name then some target.name
  else
    match plannedLocationOf planned w.name with
    | some t => some t
    | none => vmHostName w

/-- The values of `simulated_host_vm_counts` built by
`_is_anti_affinity_safe` (migration_planner.py:162-188), in dict-key order. -/
def simulatedSafetyCounts (hosts : List HostObj) (group : List VMObj)
    (vm : VMObj) (target : HostObj) (planned : List (VMObj × HostObj)) :
    List Int :=
  (hostNameKeys hosts).map (fun n =>
    ((group.filter (fun w => finalHostNameFor vm target planned w = some n)).length : Int))

/-- `MigrationManager._is_anti_affinity_safe` (migration_planner.py:137-201).
After the guards, line 190 filters the counts through
`self.cluster_state.get_host_by_name(host_name)`; evaluating that attribute
on a `ClusterState` raises `AttributeError` (the class defines no such
method), so the branch past `clusterStateGetAttr` is unreachable for this
repository's `ClusterState` and is written as the comparison the line would
perform if the lookup succeeded for every host. -/
def is_anti_affinity_safe (dist : List (String × List VMObj))
    (vms : List VMObj) (hosts : List HostObj) (vm : VMObj) (target : HostObj)
    (planned : List (VMObj × HostObj)) : Except PyErr Bool :=
  let vmPfx := vm.name.dropRight 2
  let distUsed := if dist.isEmpty then enforce_anti_affinity vms else dist
  let group := lookupD distUsed vmPfx []
  if group.isEmpty then Except.ok true
  else if hosts.length ≤ 1 then Except.ok true
  else
    let counts := simulatedSafetyCounts hosts group vm target planned
    if counts.isEmpty then Except.ok true
    else
      match clusterStateGetAttr "get_host_by_name" with
      | Except.error e => Except.error e
      | Except.ok _ => Except.ok (intListMax counts - intListMin counts ≤ 1)

/-- `MigrationManager._would_fit_on_host` (migration_planner.py:203-253).
Note line 237: the host's current memory usage is read as
`host_current_metrics.get('memory_usage_abs', 0)`, a key
`annotate_hosts_with_metrics` never writes (it writes `memory_usage`). -/
def would_fit_on_host (vmM hostM : List (String × ℚ)) : Bool :=
  if vmM.isEmpty || hostM.isEmpty then false
  else
    let vm_cpu_req := pyGetQ vmM "cpu_usage_abs" (pyGetQ vmM "cpu_allocation" 0)
    let vm_mem_req := pyGetQ vmM "memory_usage_abs" (pyGetQ vmM "memory_allocation_bytes" 0)
    let host_cpu_cap := pyGetQ hostM "cpu_capacity" 1
    let host_mem_cap := pyGetQ hostM "memory_capacity" 1
    let host_cpu_curr := pyGetQ hostM "cpu_usage" 0
    let host_mem_curr := pyGetQ hostM "memory_usage_abs" 0
    let projected_cpu_pct :=
      if host_cpu_cap > 0 then (host_cpu_curr + vm_cpu_req) / host_cpu_cap * 100 else 100
    let projected_mem_pct :=
      if host_mem_cap > 0 then (host_mem_curr + vm_mem_req) / host_mem_cap * 100 else 100
    if projected_cpu_pct > 90 then false
    else if projected_mem_pct > 90 then false
    else true

/-- Definition following the words of claim C8 / spec §4.4 item 5, for
comparison with `would_fit_on_host`: the move is accepted iff the projected
CPU and memory percentages are each at most 90, where each projection adds
the VM's absolute usage of that resource to the target host's current
absolute usage of the same resource (the snapshot's `cpu_usage` /
`memory_usage` host metrics) and divides by the host's capacity. -/
def capacity_fit_spec (vmM hostM : List (String × ℚ)) : Bool :=
  let projCpu :=
    if pyGetQ hostM "cpu_capacity" 0 > 0 then
      (pyGetQ hostM "cpu_usage" 0 + pyGetQ vmM "cpu_usage_abs" 0)
        / pyGetQ hostM "cpu_capacity" 0 * 100
    else 100
  let projMem :=
    if pyGetQ hostM "memory_capacity" 0 > 0 then
      (pyGetQ hostM "memory_usage" 0 + pyGetQ vmM "memory_usage_abs" 0)
        / pyGetQ hostM "memory_capacity" 0 * 100
    else 100
  projCpu ≤ 90 && projMem ≤ 90

/-- `MigrationManager.__init__`'s handling of `max_total_migrations`
(migration_planner.py:13-17): `None` becomes the internal default 20. -/
def mk_max_total (arg : Option Int) : Int :=
  match arg with
  | none => 20
  | some v => v

/-- A planned migration intent (`{'vm': ..., 'target_host': ...,
'reason': ...}`). -/
structure Migration where
  vm : VMObj
  target : HostObj
  reason : String
deriving Repr, DecidableEq

/-- The state a `MigrationManager` reads during `plan_migrations`: the
cluster state's hosts, VMs and metric dicts, the `LoadEvaluator`'s host-dict
list, and the `ConstraintManager`'s cached distribution and violations. -/
structure PlannerS where
  hosts : List HostObj
  vms : List VMObj
  vm_metrics : List (String × List (String × ℚ))
  host_metrics : List (String × List (String × ℚ))
  le_hosts : List (List (String × ℚ))
  vm_dist : List (String × List VMObj)
  violations : List VMObj
  aggressiveness : Int := 3
  max_total_migrations : Nat := 20
  ignore_anti_affinity : Bool := false

/-- The loop of `MigrationManager._plan_anti_affinity_migrations`
(migration_planner.py:462-495): per violating VM, skip it when already
planned or a template, else call `get_preferred_host_for_vm` with the
`planned_migrations_this_cycle` keyword (which raises, see
`call_get_preferred_host_with_planned`), and on success plan the move when
the capacity fit check passes. -/
def aaLoop (s : PlannerS) (distUsed : List (String × List VMObj))
    (pending : List VMObj) (inPlan : List String) (acc : List Migration) :
    Except PyErr (List Migration × List String) :=
  match pending with
  | [] => Except.ok (acc, inPlan)
  | vm :: rest =>
    if inPlan.contains vm.name then aaLoop s distUsed rest inPlan acc
    else if vm.isTemplate then aaLoop s distUsed rest inPlan acc
    else
      match call_get_preferred_host_with_planned distUsed s.vms s.hosts vm with
      | Except.error e => Except.error e
      | Except.ok none => aaLoop s distUsed rest inPlan acc
      | Except.ok (some tgt) =>
        if would_fit_on_host (lookupD s.vm_metrics vm.name [])
            (lookupD s.host_metrics tgt.name []) then
          aaLoop s distUsed rest (inPlan ++ [vm.name])
            (acc ++ [⟨vm, tgt, "Anti-Affinity"⟩])
        else aaLoop s distUsed rest inPlan acc

/-- `MigrationManager._plan_anti_affinity_migrations`
(migration_planner.py:439-495).  When the cached violations list is empty the
groups and violations are recomputed first (lines 450-453). -/
def plan_anti_affinity_migrations (s : PlannerS) :
    Except PyErr (List Migration × List String) :=
  let distUsed := if s.violations.isEmpty then enforce_anti_affinity s.vms else s.vm_dist
  let viol :=
    if s.violations.isEmpty then calculate_anti_affinity_violations distUsed s.hosts
    else s.violations
  aaLoop s distUsed viol [] []

/-- `MigrationManager._plan_balancing_migrations`
(migration_planner.py:497-621).  Its first statement calls
`evaluate_imbalance` with the four `*_percentages_override` keyword
arguments (lines 512-518), which raises `TypeError` against
`LoadEvaluator.evaluate_imbalance`'s parameters; everything after that call
is unreachable for this repository's `LoadEvaluator` and is modelled as the
empty plan. -/
def plan_balancing_migrations (s : PlannerS) : Except PyErr (List Migration) :=
  match call_evaluate_imbalance_with_overrides s.le_hosts s.aggressiveness with
  | Except.error e => Except.error e
  | Except.ok _ => Except.ok []

/-- The cap-enforcement block of `MigrationManager.plan_migrations`
(migration_planner.py:404-425): truncate an over-long plan keeping
anti-affinity intents first, then balancing intents in plan order. -/
def truncate_migrations (migrations : List Migration) (maxTotal : Nat) :
    List Migration :=
  if migrations.length > maxTotal then
    let aa := migrations.filter (fun m => m.reason = "Anti-Affinity")
    let bal := migrations.filter (fun m => m.reason ≠ "Anti-Affinity")
    if aa.length ≥ maxTotal then aa.take maxTotal
    else aa ++ bal.take (maxTotal - aa.length)
  else migrations

/-- `MigrationManager.plan_migrations` (migration_planner.py:349-436).
The initial `hasattr(self.load_evaluator,
'get_all_host_resource_percentages_map')` probe is `False` for
modules/load_evaluator.py, so the initial map is `{}` (lines 357-363); the
post-anti-affinity load simulation (lines 380-385) would only feed the
balancing step, which raises before using it. -/
def plan_migrations (s : PlannerS) : Except PyErr (List (VMObj × HostObj)) :=
  match plan_anti_affinity_migrations s with
  | Except.error e => Except.error e
  | Except.ok (aa, _) =>
    match plan_balancing_migrations s with
    | Except.error e => Except.error e
    | Except.ok bal =>
      let migrations := truncate_migrations (aa ++ bal) s.max_total_migrations
      Except.ok (migrations.map (fun m => (m.vm, m.target)))

/-- The fallback candidates of `_find_better_than_source_host` as a set: the
active hosts other than the source whose current group count is strictly
below the source's. -/
def better_than_source_candidates (hosts : List HostObj) (group : List VMObj)
    (srcName : String) (srcCount : WithTop Int) : List HostObj :=
  hosts.filter (fun t =>
    t.name ≠ srcName && ((groupCountGet hosts group t.name 0 : WithTop Int) < srcCount))

/-- "Lowest current group count, ties broken by lexicographically smallest
host name": `a` is at least as preferred as `b`. -/
def countNameLE (cnt : String → Int) (a b : HostObj) : Prop :=
  cnt a.name < cnt b.name ∨ (cnt a.name = cnt b.name ∧ a.name ≤ b.name)

/-! ## Concrete cluster fixtures used by the theorems below -/

def hostA : HostObj := ⟨"esx-a"⟩
def hostB : HostObj := ⟨"esx-b"⟩
def hostC : HostObj := ⟨"esx-c"⟩

def vmApp1 : VMObj :=
  { name := "appvm01", runtimeHost := some hostA,
    overallCpuUsage := 100, guestMemoryUsage := 500 }
def vmApp2 : VMObj :=
  { name := "appvm02", runtimeHost := some hostA,
    overallCpuUsage := 50, guestMemoryUsage := 300 }
def vmApp3 : VMObj :=
  { name := "appvm03", runtimeHost := some hostA }
def vmApp4 : VMObj :=
  { name := "appvm04", runtimeHost := some hostB }

/-- `ResourceMonitor.get_host_metrics` output for the C1 scenario: the
host's own counters report 800 MB of memory in use, and the capacities are
fixed. -/
def rmHostC1 : String → List (String × ℚ) := fun _ =>
  [("cpu_usage", 10), ("memory_usage", 800),
   ("disk_io_usage", 0), ("network_io_usage", 0),
   ("cpu_capacity", 2000), ("memory_capacity", 4000),
   ("disk_io_capacity", 1000), ("network_capacity", 1250)]

def c5_dist : List (String × List VMObj) := [("appvm", [vmApp1, vmApp2, vmApp3])]

def c6_state : PlannerS :=
  { hosts := [hostA, hostB], vms := [vmApp1, vmApp2, vmApp3],
    vm_metrics := [], host_metrics := [], le_hosts := [],
    vm_dist := [("appvm", [vmApp1, vmApp2, vmApp3])],
    violations := [vmApp1, vmApp2, vmApp3] }

def c7_state : PlannerS :=
  { hosts := [hostA, hostB], vms := [], vm_metrics := [], host_metrics := [],
    le_hosts := [], vm_dist := [], violations := [] }

def c8_vm_metrics : List (String × ℚ) :=
  [("cpu_usage_abs", 10), ("memory_usage_abs", 10)]

def c8_host_metrics : List (String × ℚ) :=
  [("cpu_usage", 100), ("memory_usage", 950),
   ("cpu_capacity", 1000), ("memory_capacity", 1000)]

/-! ## Theorems -/

/-- In `get_vms_on_host`, the comparison `get_host_of_vm(vm) ==
host_object.name` compares a host managed object (or `None`) with a string,
which is always `False` in Python. -/
theorem pyEq_hostRefVal_str (r : Option HostObj) (s : String) :
    pyEq (hostRefVal r) (PyVal.pyStr s) = false := by
  cases r <;> rfl

/-- `get_vms_on_host` returns the empty list on every input. -/
theorem get_vms_on_host_nil (vms : List VMObj) (host : HostObj) :
    get_vms_on_host vms host = [] := by
  induction vms with
  | nil => rfl
  | cons v vs ih =>
    simp only [get_vms_on_host, List.filter_cons, pyEq_hostRefVal_str] at ih ⊢
    exact ih

/-- C4: because `get_vms_on_host` compares the host object returned by
`get_host_of_vm` with the string `host.name`, it always returns the empty
list, and consequently every per-host summed usage computed by
`annotate_hosts_with_metrics` is 0 (capacities still come from the
`ResourceMonitor` data, and the derived percentages are 0 as well). -/
theorem c4_get_vms_on_host_always_empty :
    (∀ (vms : List VMObj) (host : HostObj), get_vms_on_host vms host = [])
    ∧ ∀ (vms : List VMObj) (hosts : List HostObj)
        (vmMetrics : List (String × List (String × ℚ)))
        (rmHost : String → List (String × ℚ)),
        annotate_hosts_with_metrics vms hosts vmMetrics rmHost
          = hosts.map (fun h =>
              (h.name,
                [("cpu_usage", 0), ("memory_usage", 0), ("disk_io_usage", 0),
                 ("network_io_usage", 0),
                 ("cpu_capacity", pyGetQ (rmHost h.name) "cpu_capacity" 0),
                 ("memory_capacity", pyGetQ (rmHost h.name) "memory_capacity" 0),
                 ("disk_io_capacity", pyGetQ (rmHost h.name) "disk_io_capacity" 1),
                 ("network_capacity", pyGetQ (rmHost h.name) "network_capacity" 1),
                 ("cpu_usage_pct", 0), ("memory_usage_pct", 0)])) := by
  refine ⟨get_vms_on_host_nil, ?_⟩
  intro vms hosts vmMetrics rmHost
  unfold annotate_hosts_with_metrics
  refine List.map_congr_left ?_
  intro h _
  simp [get_vms_on_host_nil, ite_self]

/-- C1: `annotate_hosts_with_metrics` records a host's absolute memory usage
as the sum of VM guest memory over `get_vms_on_host` (which is moreover
always empty, so the recorded value is 0); it never reads the host's own
memory counter from `ResourceMonitor.get_host_metrics`.  Concretely: the
host counter reports 800, a 500 MB-guest-memory VM runs on the host, and the
snapshot records 0. -/
theorem c1_host_memory_usage_is_summed_not_host_counter :
    pyGetQ (lookupD (annotate_hosts_with_metrics [vmApp1] [hostA]
        (annotate_vms_with_metrics [vmApp1] (fun _ => 0) (fun _ => 0)) rmHostC1)
      "esx-a" []) "memory_usage" 0 = 0
    ∧ pyGetQ (rmHostC1 "esx-a") "memory_usage" 0 = 800
    ∧ vmApp1.runtimeHost = some hostA
    ∧ vmApp1.guestMemoryUsage = 500
    ∧ (0 : ℚ) ≠ 800 := by
  refine ⟨?_, ?_, rfl, rfl, by norm_num⟩
  · simp [annotate_hosts_with_metrics, annotate_vms_with_metrics,
      get_vms_on_host_nil, lookupD, pyGetQ, List.lookup, rmHostC1, vmApp1, hostA]
  · simp [rmHostC1, pyGetQ, List.lookup]

/-- C2: `get_preferred_host_for_vm` declares only `(self, vm_to_move)`, so
the call `_plan_anti_affinity_migrations` makes, which passes the
`planned_migrations_this_cycle` keyword, raises `TypeError` on every input
instead of returning a host. -/
theorem c2_preferred_host_call_with_planned_raises
    (dist : List (String × List VMObj)) (vms : List VMObj)
    (hosts : List HostObj) (vm : VMObj) :
    call_get_preferred_host_with_planned dist vms hosts vm
      = Except.error (PyErr.typeError "get_preferred_host_for_vm"
          "planned_migrations_this_cycle") := rfl

/-- C3: `evaluate_imbalance` declares only `(self, metrics_to_check,
aggressiveness)` and returns a single boolean, so the planner's call with
the four `*_percentages_override` keyword arguments raises `TypeError` on
every input; the embedded `evaluate_imbalance` itself is `Bool`-valued (a
sample imbalanced input evaluates to `true`, not to a per-resource detail
map). -/
theorem c3_evaluate_imbalance_call_with_overrides_raises
    (hostsData : List (List (String × ℚ))) (aggressiveness : Int) :
    call_evaluate_imbalance_with_overrides hostsData aggressiveness
      = Except.error (PyErr.typeError "evaluate_imbalance"
          "cpu_percentages_override")
    ∧ evaluate_imbalance
        [[("cpu_usage", 80), ("cpu_capacity", 100)],
         [("cpu_usage", 10), ("cpu_capacity", 100)]] none 3 = true := by
  refine ⟨rfl, ?_⟩
  simp [evaluate_imbalance, get_resource_percentage_lists, get_thresholds,
    qListMax, qListMin, lookupD, pyGetQ, List.lookup]
  norm_num

/-- C5: whenever the VM's `name[:-2]` group is non-empty in
`vm_distribution` and there are at least two active hosts,
`_is_anti_affinity_safe` reaches the list comprehension that calls
`self.cluster_state.get_host_by_name`, a method `ClusterState` does not
define, and raises `AttributeError` instead of returning a boolean. -/
theorem c5_anti_affinity_safe_raises_attribute_error
    (dist : List (String × List VMObj)) (vms : List VMObj)
    (hosts : List HostObj) (vm : VMObj) (target : HostObj)
    (planned : List (VMObj × HostObj))
    (hdist : dist.isEmpty = false)
    (hgroup : (lookupD dist (vm.name.dropRight 2) []).isEmpty = false)
    (hhosts : 2 ≤ hosts.length) :
    is_anti_affinity_safe dist vms hosts vm target planned
      = Except.error (PyErr.attributeError "ClusterState" "get_host_by_name") := by
  obtain ⟨h0, hs, rfl⟩ : ∃ h0 hs, hosts = h0 :: hs := by
    cases hosts with
    | nil => simp at hhosts
    | cons a l => exact ⟨a, l, rfl⟩
  have hlen : ((h0 :: hs).length ≤ 1) = False := by
    simp only [List.length_cons] at hhosts ⊢
    exact eq_false (by omega)
  have hkeys : (hostNameKeys (h0 :: hs)).isEmpty = false := by
    have : h0.name ∈ hostNameKeys (h0 :: hs) := by
      simp [hostNameKeys, List.mem_dedup]
    cases hk : hostNameKeys (h0 :: hs) with
    | nil => rw [hk] at this; simp at this
    | cons a l => rfl
  unfold is_anti_affinity_safe
  rw [hdist]
  simp only [Bool.false_eq_true, if_false]
  rw [hgroup]
  simp only [Bool.false_eq_true, if_false, hlen]
  have hcounts : (simulatedSafetyCounts (h0 :: hs)
      (lookupD dist (vm.name.dropRight 2) []) vm target planned).isEmpty = false := by
    unfold simulatedSafetyCounts
    cases hk : hostNameKeys (h0 :: hs) with
    | nil => rw [hk] at hkeys; simp at hkeys
    | cons a l => rfl
  simp only [hcounts, Bool.false_eq_true, if_false]
  rfl

/-- C5 witness: the concrete error on a two-host cluster with a populated
`appvm` group. -/
theorem c5_anti_affinity_safe_raises_attribute_error_witness :
    c5_dist.isEmpty = false
    ∧ (lookupD c5_dist (vmApp1.name.dropRight 2) []).isEmpty = false
    ∧ 2 ≤ ([hostA, hostB] : List HostObj).length
    ∧ is_anti_affinity_safe c5_dist [] [hostA, hostB] vmApp1 hostB []
      = Except.error (PyErr.attributeError "ClusterState" "get_host_by_name") :=
  ⟨by decide, by decide, by decide,
   c5_anti_affinity_safe_raises_attribute_error c5_dist [] [hostA, hostB]
     vmApp1 hostB [] (by decide) (by decide) (by decide)⟩

/-- `plan_balancing_migrations` raises on every planner state: its first
action is the override-keyword call to `evaluate_imbalance`. -/
theorem plan_balancing_migrations_raises (s : PlannerS) :
    plan_balancing_migrations s
      = Except.error (PyErr.typeError "evaluate_imbalance"
          "cpu_percentages_override") := rfl

/-- C6: `plan_migrations` never returns a plan at all — every run raises a
`TypeError` (from the planned-intents keyword when an anti-affinity
violation is processed, otherwise from the balancing pass's override
keywords) — so the no-duplicate-VM guarantee over returned plans is
unrealizable dead code.  On the concrete state with violations, the error is
the preferred-host `TypeError`. -/
theorem c6_plan_migrations_never_returns_a_plan :
    (∀ (s : PlannerS) (p : List (VMObj × HostObj)),
      plan_migrations s ≠ Except.ok p)
    ∧ plan_migrations c6_state
        = Except.error (PyErr.typeError "get_preferred_host_for_vm"
            "planned_migrations_this_cycle") := by
  constructor
  · intro s p h
    unfold plan_migrations at h
    cases hA : plan_anti_affinity_migrations s with
    | error e => rw [hA] at h; exact Except.noConfusion h
    | ok pr =>
      rw [hA] at h
      rw [plan_balancing_migrations_raises s] at h
      exact Except.noConfusion h
  · rfl

/-- C7: the cap logic itself defaults to 20 and would keep anti-affinity
intents first (shown on a sample over-long plan), but it is unreachable:
`plan_migrations` raises before producing any plan, here from the
balancing pass's override keywords even with no violations. -/
theorem c7_migration_cap_is_dead_code :
    mk_max_total none = 20
    ∧ mk_max_total (some 7) = 7
    ∧ truncate_migrations
        [⟨vmApp2, hostB, "Resource Balancing (cpu)"⟩,
         ⟨vmApp1, hostB, "Anti-Affinity"⟩,
         ⟨vmApp3, hostC, "Resource Balancing (cpu)"⟩] 2
      = [⟨vmApp1, hostB, "Anti-Affinity"⟩,
         ⟨vmApp2, hostB, "Resource Balancing (cpu)"⟩]
    ∧ plan_migrations c7_state
        = Except.error (PyErr.typeError "evaluate_imbalance"
            "cpu_percentages_override") := by
  refine ⟨rfl, rfl, by decide, rfl⟩

/-- C8: `_would_fit_on_host` reads the host's current memory usage from the
key `memory_usage_abs`, which the snapshot never writes (the host metric is
`memory_usage`), so the memory projection adds the VM to 0 instead of to the
host's current usage: a host at 950/1000 MB accepts a 10 MB VM (projected
96% > 90 under the claimed rule). -/
theorem c8_fit_check_ignores_host_memory_usage :
    would_fit_on_host c8_vm_metrics c8_host_metrics = true
    ∧ capacity_fit_spec c8_vm_metrics c8_host_metrics = false
    ∧ pyGetQ c8_host_metrics "memory_usage" 0 = 950
    ∧ pyGetQ c8_host_metrics "memory_usage_abs" 0 = 0 := by
  refine ⟨?_, ?_, ?_, ?_⟩
  · simp [would_fit_on_host, c8_vm_metrics, c8_host_metrics, pyGetQ, List.lookup]
    norm_num
  · simp [capacity_fit_spec, c8_vm_metrics, c8_host_metrics, pyGetQ, List.lookup]
    norm_num
  · simp [c8_host_metrics, pyGetQ, List.lookup]
  · simp [c8_host_metrics, pyGetQ, List.lookup]

/-! ### The violations computation (C9) -/

theorem mem_hostNameKeys {hosts : List HostObj} {n : String} :
    n ∈ hostNameKeys hosts ↔ ∃ h ∈ hosts, h.name = n := by
  simp [hostNameKeys, List.mem_dedup]

theorem groupCountsList_eq_map (hosts : List HostObj) (group : List VMObj) :
    groupCountsList hosts group
      = hosts.map (fun h => groupCount group h.name) := by
  unfold groupCountsList
  congr 1
  refine List.filter_eq_self.mpr ?_
  intro a ha
  simp only [decide_eq_true_eq]
  exact mem_hostNameKeys.mpr ⟨a, ha, rfl⟩

theorem mem_vmsOnHostOfGroup {group : List VMObj} {v : VMObj} {n : String} :
    v ∈ vmsOnHostOfGroup group n ↔ v ∈ group ∧ vmHostName v = some n := by
  simp [vmsOnHostOfGroup, List.mem_filter]

theorem groupOnHostsCount_pos {hosts : List HostObj} {group : List VMObj}
    {v : VMObj} {h : HostObj} (hv : v ∈ group) (hh : h ∈ hosts)
    (hn : vmHostName v = some h.name) :
    ¬ groupOnHostsCount hosts group = 0 := by
  unfold groupOnHostsCount
  intro h0
  rw [List.length_eq_zero, List.filter_eq_nil_iff] at h0
  refine h0 v hv ?_
  simp only [hn, decide_eq_true_eq]
  exact mem_hostNameKeys.mpr ⟨h, hh, rfl⟩

theorem mem_groupViolations {hosts : List HostObj} {group : List VMObj}
    {v : VMObj} :
    v ∈ groupViolations hosts group ↔
      (1 < intListMax (groupCountsList hosts group)
            - intListMin (groupCountsList hosts group)
       ∧ v ∈ group
       ∧ ∃ h ∈ hosts, vmHostName v = some h.name
           ∧ groupCount group h.name
               = intListMax (groupCountsList hosts group)) := by
  constructor
  · intro hv
    unfold groupViolations at hv
    split at hv
    · exact absurd hv (List.not_mem_nil v)
    split at hv
    · exact absurd hv (List.not_mem_nil v)
    split at hv
    · exact absurd hv (List.not_mem_nil v)
    split at hv
    case isFalse => exact absurd hv (List.not_mem_nil v)
    case isTrue hcond =>
      rw [List.mem_flatMap] at hv
      obtain ⟨n, hn, hvin⟩ := hv
      by_cases hc : groupCount group n = intListMax (groupCountsList hosts group)
      · rw [if_pos hc] at hvin
        rw [mem_vmsOnHostOfGroup] at hvin
        obtain ⟨hvg, hvn⟩ := hvin
        obtain ⟨h, hh, rfl⟩ := mem_hostNameKeys.mp hn
        exact ⟨hcond, hvg, h, hh, hvn, hc⟩
      · rw [if_neg hc] at hvin
        exact absurd hvin (List.not_mem_nil v)
  · rintro ⟨hcond, hvg, h, hh, hvn, hc⟩
    have hg : group.isEmpty = false :=
      List.isEmpty_eq_false.mpr (List.ne_nil_of_mem hvg)
    have hcnt : (groupCountsList hosts group).isEmpty = false := by
      refine List.isEmpty_eq_false.mpr ?_
      rw [groupCountsList_eq_map]
      simp only [ne_eq, List.map_eq_nil_iff]
      exact List.ne_nil_of_mem hh
    unfold groupViolations
    rw [hg]
    simp only [Bool.false_eq_true, if_false]
    rw [if_neg (groupOnHostsCount_pos hvg hh hvn)]
    rw [hcnt]
    simp only [Bool.false_eq_true, if_false]
    rw [if_pos hcond, List.mem_flatMap]
    refine ⟨h.name, mem_hostNameKeys.mpr ⟨h, hh, rfl⟩, ?_⟩
    rw [if_pos hc]
    exact mem_vmsOnHostOfGroup.mpr ⟨hvg, hvn⟩

/-- C9: with fewer than two active hosts the violations computation returns
the empty list; with at least two, the returned list has no repeated VM and
contains exactly the VMs of groups whose per-host counts differ by more than
1 that sit on a host whose count equals the maximum. -/
theorem c9_violations_characterization (dist : List (String × List VMObj))
    (hosts : List HostObj) :
    (hosts.length ≤ 1 → calculate_anti_affinity_violations dist hosts = [])
    ∧ (2 ≤ hosts.length →
        (calculate_anti_affinity_violations dist hosts).Nodup
        ∧ ∀ v : VMObj,
            v ∈ calculate_anti_affinity_violations dist hosts ↔
              ∃ e ∈ dist, v ∈ e.2
                ∧ 1 < intListMax (groupCountsList hosts e.2)
                      - intListMin (groupCountsList hosts e.2)
                ∧ ∃ h ∈ hosts, vmHostName v = some h.name
                    ∧ groupCount e.2 h.name
                        = intListMax (groupCountsList hosts e.2)) := by
  constructor
  · intro hle
    unfold calculate_anti_affinity_violations
    rw [if_pos hle]
  · intro h2
    have hgt : ¬ hosts.length ≤ 1 := by omega
    unfold calculate_anti_affinity_violations
    rw [if_neg hgt]
    refine ⟨List.nodup_dedup _, ?_⟩
    intro v
    rw [List.mem_dedup, List.mem_flatMap]
    constructor
    · rintro ⟨e, he, hv⟩
      obtain ⟨hcond, hvg, h, hh, hvn, hc⟩ := mem_groupViolations.mp hv
      exact ⟨e, he, hvg, hcond, h, hh, hvn, hc⟩
    · rintro ⟨e, he, hvg, hcond, h, hh, hvn, hc⟩
      exact ⟨e, he, mem_groupViolations.mpr ⟨hcond, hvg, h, hh, hvn, hc⟩⟩

def c9_dist : List (String × List VMObj) :=
  [("appvm", [vmApp1, vmApp2, vmApp3, vmApp4])]

/-- C9 witness: a single host yields no violations; on two hosts with an
`appvm` group split 3/1, the result is duplicate-free. -/
theorem c9_violations_characterization_witness :
    (([hostA] : List HostObj).length ≤ 1
      ∧ calculate_anti_affinity_violations c9_dist [hostA] = [])
    ∧ (2 ≤ ([hostA, hostB] : List HostObj).length
      ∧ (calculate_anti_affinity_violations c9_dist [hostA, hostB]).Nodup) :=
  ⟨⟨by decide, (c9_violations_characterization c9_dist [hostA]).1 (by decide)⟩,
   ⟨by decide,
    ((c9_violations_characterization c9_dist [hostA, hostB]).2 (by decide)).1⟩⟩

/-! ### The preferred-host two-pass selection (C10) -/

theorem countNameLE_refl (cnt : String → Int) (a : HostObj) :
    countNameLE cnt a a :=
  Or.inr ⟨rfl, le_refl _⟩

theorem countNameLE_trans {cnt : String → Int} {a b c : HostObj}
    (h1 : countNameLE cnt a b) (h2 : countNameLE cnt b c) :
    countNameLE cnt a c := by
  rcases h1 with h1 | ⟨e1, n1⟩ <;> rcases h2 with h2 | ⟨e2, n2⟩
  · exact Or.inl (h1.trans h2)
  · exact Or.inl (lt_of_lt_of_eq h1 e2)
  · exact Or.inl (lt_of_eq_of_lt e1 h2)
  · exact Or.inr ⟨e1.trans e2, n1.trans n2⟩

theorem selectStep_some (cnt : String → Int) (b0 c : HostObj) :
    ∃ b1, selectStep cnt (some b0) c = some b1 ∧ (b1 = b0 ∨ b1 = c)
      ∧ countNameLE cnt b1 b0 ∧ countNameLE cnt b1 c := by
  unfold selectStep
  by_cases h1 : cnt c.name < cnt b0.name
  · exact ⟨c, by simp [h1], Or.inr rfl, Or.inl h1, countNameLE_refl cnt c⟩
  · by_cases h2 : cnt c.name = cnt b0.name
    · by_cases h3 : c.name < b0.name
      · exact ⟨c, by simp [h1, h2, h3], Or.inr rfl,
          Or.inr ⟨h2, le_of_lt h3⟩, countNameLE_refl cnt c⟩
      · exact ⟨b0, by simp [h1, h3], Or.inl rfl, countNameLE_refl cnt b0,
          Or.inr ⟨h2.symm, le_of_not_lt h3⟩⟩
    · have hlt : cnt b0.name < cnt c.name :=
        lt_of_le_of_ne (le_of_not_lt h1) (fun e => h2 e.symm)
      exact ⟨b0, by simp [h1, h2], Or.inl rfl, countNameLE_refl cnt b0,
        Or.inl hlt⟩

theorem foldl_selectStep_spec (cnt : String → Int) (cands : List HostObj)
    (b0 : HostObj) :
    ∃ b, cands.foldl (selectStep cnt) (some b0) = some b
      ∧ (b = b0 ∨ b ∈ cands)
      ∧ countNameLE cnt b b0 ∧ ∀ t ∈ cands, countNameLE cnt b t := by
  induction cands generalizing b0 with
  | nil =>
    exact ⟨b0, rfl, Or.inl rfl, countNameLE_refl cnt b0,
      fun t ht => absurd ht (List.not_mem_nil t)⟩
  | cons c cs ih =>
    obtain ⟨b1, he, hcase, hb0, hc⟩ := selectStep_some cnt b0 c
    obtain ⟨b, hfold, hbcase, hbb1, hall⟩ := ih b1
    refine ⟨b, ?_, ?_, countNameLE_trans hbb1 hb0, ?_⟩
    · rw [List.foldl_cons, he]
      exact hfold
    · rcases hbcase with rfl | hb
      · rcases hcase with rfl | rfl
        · exact Or.inl rfl
        · exact Or.inr (List.mem_cons_self _ _)
      · exact Or.inr (List.mem_cons_of_mem _ hb)
    · intro t ht
      rcases List.mem_cons.mp ht with rfl | htc
      · exact countNameLE_trans hbb1 hc
      · exact hall t htc

theorem selectLowestCount_eq_none {cands : List HostObj}
    {cnt : String → Int} :
    selectLowestCount cands cnt = none ↔ cands = [] := by
  cases cands with
  | nil => simp [selectLowestCount]
  | cons c cs =>
    simp only [selectLowestCount, List.foldl_cons]
    have hstep : selectStep cnt none c = some c := rfl
    rw [hstep]
    obtain ⟨b, hf, _, _, _⟩ := foldl_selectStep_spec cnt cs c
    rw [hf]
    simp

theorem selectLowestCount_spec {cands : List HostObj} {cnt : String → Int}
    {b : HostObj} (h : selectLowestCount cands cnt = some b) :
    b ∈ cands ∧ ∀ t ∈ cands, countNameLE cnt b t := by
  cases cands with
  | nil => simp [selectLowestCount] at h
  | cons c cs =>
    rw [selectLowestCount, List.foldl_cons] at h
    have hstep : selectStep cnt none c = some c := rfl
    rw [hstep] at h
    obtain ⟨b', hf, hbc, hbb0, hall⟩ := foldl_selectStep_spec cnt cs c
    rw [hf] at h
    obtain rfl : b' = b := Option.some.inj h
    constructor
    · rcases hbc with rfl | hb
      · exact List.mem_cons_self _ _
      · exact List.mem_cons_of_mem _ hb
    · intro t ht
      rcases List.mem_cons.mp ht with rfl | htc
      · exact hbb0
      · exact hall t htc

theorem betterThanSourceStep_eq (hosts : List HostObj) (group : List VMObj)
    (srcName : String) (srcCount : WithTop Int) (best : Option HostObj)
    (t : HostObj) :
    betterThanSourceStep hosts group srcName srcCount best t
      = if (t.name ≠ srcName
            && ((groupCountGet hosts group t.name 0 : WithTop Int) < srcCount)
            : Bool)
        then selectStep (currentCountOf hosts group) best t else best := by
  unfold betterThanSourceStep
  by_cases h1 : t.name = srcName
  · rw [if_pos h1]
    have hcond : (t.name ≠ srcName
        && (((groupCountGet hosts group t.name 0 : Int) : WithTop Int)
            < srcCount) : Bool) = false := by
      simp [h1]
    rw [hcond]
    simp
  · rw [if_neg h1]
    by_cases h2 : ((groupCountGet hosts group t.name 0 : Int) : WithTop Int)
        < srcCount
    · rw [if_pos h2]
      have hcond : (t.name ≠ srcName
          && (((groupCountGet hosts group t.name 0 : Int) : WithTop Int)
              < srcCount) : Bool) = true := by
        simp [h1, h2]
      rw [hcond, if_pos rfl]
      cases best with
      | none => rfl
      | some b => rfl
    · rw [if_neg h2]
      have hcond : (t.name ≠ srcName
          && (((groupCountGet hosts group t.name 0 : Int) : WithTop Int)
              < srcCount) : Bool) = false := by
        simp [h1, h2]
      rw [hcond]
      simp

theorem foldl_guard_filter {α β : Type} (p : α → Bool) (f : β → α → β) :
    ∀ (l : List α) (acc : β),
      l.foldl (fun b t => if p t then f b t else b) acc
        = (l.filter p).foldl f acc := by
  intro l
  induction l with
  | nil => intro acc; rfl
  | cons x xs ih =>
    intro acc
    rw [List.foldl_cons, List.filter_cons]
    by_cases hp : p x
    · rw [if_pos hp, if_pos hp, List.foldl_cons]
      exact ih _
    · rw [if_neg hp, if_neg hp]
      exact ih _

theorem find_better_eq_select (hosts : List HostObj) (group : List VMObj)
    (srcName : String) (srcCount : WithTop Int) :
    find_better_than_source_host hosts group srcName srcCount
      = selectLowestCount
          (better_than_source_candidates hosts group srcName srcCount)
          (currentCountOf hosts group) := by
  unfold find_better_than_source_host better_than_source_candidates
    selectLowestCount
  rw [show betterThanSourceStep hosts group srcName srcCount
        = fun best t =>
            if (t.name ≠ srcName
                && ((groupCountGet hosts group t.name 0 : WithTop Int) < srcCount)
                : Bool)
            then selectStep (currentCountOf hosts group) best t else best
      from funext fun best => funext fun t =>
        betterThanSourceStep_eq hosts group srcName srcCount best t]
  exact foldl_guard_filter _ _ hosts none

/-- C10: for a violating VM with at least-3-character name, a populated
distribution, a known source host and at least two active hosts, the
preferred-host query first picks, among the perfect-balance candidates
(targets other than the source whose simulated move leaves the group's
per-host counts within 1), the one with the lowest current group count with
name-lexicographic tie-breaking; only if none exists does it pick, among
hosts whose current count is strictly below the source's, the same minimum;
and it returns `none` when both candidate sets are empty. -/
theorem c10_preferred_host_two_pass (dist : List (String × List VMObj))
    (vms : List VMObj) (hosts : List HostObj) (vm : VMObj) (src : HostObj)
    (hlen : 3 ≤ vm.name.length)
    (hdist : dist ≠ [])
    (hsrc : get_host_of_vm vm = some src)
    (hgroup : lookupD dist (vm.name.dropRight 2) [] ≠ [])
    (hhosts : 2 ≤ hosts.length) :
    let group := lookupD dist (vm.name.dropRight 2) []
    let cnt := currentCountOf hosts group
    let P := perfect_balance_candidates hosts group src.name
    let F := better_than_source_candidates hosts group src.name
      (sourceCountOf hosts group src.name)
    let r := get_preferred_host_for_vm dist vms hosts vm
    (P ≠ [] → ∃ b, r = some b ∧ b ∈ P ∧ ∀ t ∈ P, countNameLE cnt b t)
    ∧ (P = [] → F ≠ [] →
        ∃ b, r = some b ∧ b ∈ F ∧ ∀ t ∈ F, countNameLE cnt b t)
    ∧ (P = [] → F = [] → r = none) := by
  intro group cnt P F r
  have hr : r = (match find_perfect_balance_host hosts group src.name with
      | some t => some t
      | none => find_better_than_source_host hosts group src.name
          (sourceCountOf hosts group src.name)) := by
    show get_preferred_host_for_vm dist vms hosts vm = _
    have hde : dist.isEmpty = false := List.isEmpty_eq_false.mpr hdist
    have hge : (lookupD dist (vm.name.dropRight 2) []).isEmpty = false :=
      List.isEmpty_eq_false.mpr hgroup
    have h3 : ¬ vm.name.length < 3 := by omega
    have h1 : ¬ hosts.length ≤ 1 := by omega
    simp only [get_preferred_host_for_vm, hde, Bool.false_eq_true, if_false,
      hge, hsrc, if_neg h3, if_neg h1]
  cases hP : find_perfect_balance_host hosts group src.name with
  | some b =>
    rw [hP] at hr
    have hsel : selectLowestCount P cnt = some b := hP
    obtain ⟨hmem, hmin⟩ := selectLowestCount_spec hsel
    refine ⟨fun _ => ⟨b, hr, hmem, hmin⟩, ?_, ?_⟩
    · intro hPem
      rw [hPem] at hmem
      exact absurd hmem (List.not_mem_nil b)
    · intro hPem
      rw [hPem] at hmem
      exact absurd hmem (List.not_mem_nil b)
  | none =>
    rw [hP] at hr
    have hPem : P = [] := by
      have : selectLowestCount P cnt = none := hP
      exact selectLowestCount_eq_none.mp this
    rw [find_better_eq_select] at hr
    cases hF : selectLowestCount F cnt with
    | some b =>
      rw [hF] at hr
      obtain ⟨hmem, hmin⟩ := selectLowestCount_spec hF
      refine ⟨fun hne => absurd hPem hne, fun _ _ => ⟨b, hr, hmem, hmin⟩, ?_⟩
      intro _ hFem
      rw [hFem] at hmem
      exact absurd hmem (List.not_mem_nil b)
    | none =>
      rw [hF] at hr
      have hFem : F = [] := selectLowestCount_eq_none.mp hF
      exact ⟨fun hne => absurd hPem hne,
        fun _ hne => absurd hFem hne, fun _ _ => hr⟩

def c10_dist : List (String × List VMObj) := [("appvm", [vmApp1, vmApp2, vmApp4])]

def c10_hosts : List HostObj := [hostA, hostB, hostC]

/-- C10 witness: `appvm01` sits on `esx-a` with group counts (2, 1, 0) over
three hosts; the only perfect-balance candidate is `esx-c`, and the query
returns it. -/
theorem c10_preferred_host_two_pass_witness :
    3 ≤ vmApp1.name.length ∧ c10_dist ≠ []
    ∧ get_host_of_vm vmApp1 = some hostA
    ∧ lookupD c10_dist (vmApp1.name.dropRight 2) [] ≠ []
    ∧ 2 ≤ c10_hosts.length
    ∧ ((perfect_balance_candidates c10_hosts
          (lookupD c10_dist (vmApp1.name.dropRight 2) []) hostA.name ≠ [] →
        ∃ b, get_preferred_host_for_vm c10_dist [] c10_hosts vmApp1 = some b
          ∧ b ∈ perfect_balance_candidates c10_hosts
              (lookupD c10_dist (vmApp1.name.dropRight 2) []) hostA.name
          ∧ ∀ t ∈ perfect_balance_candidates c10_hosts
              (lookupD c10_dist (vmApp1.name.dropRight 2) []) hostA.name,
              countNameLE (currentCountOf c10_hosts
                (lookupD c10_dist (vmApp1.name.dropRight 2) [])) b t)
        ∧ (perfect_balance_candidates c10_hosts
              (lookupD c10_dist (vmApp1.name.dropRight 2) []) hostA.name = [] →
           better_than_source_candidates c10_hosts
              (lookupD c10_dist (vmApp1.name.dropRight 2) []) hostA.name
              (sourceCountOf c10_hosts
                (lookupD c10_dist (vmApp1.name.dropRight 2) []) hostA.name) ≠ [] →
           ∃ b, get_preferred_host_for_vm c10_dist [] c10_hosts vmApp1 = some b
             ∧ b ∈ better_than_source_candidates c10_hosts
                 (lookupD c10_dist (vmApp1.name.dropRight 2) []) hostA.name
                 (sourceCountOf c10_hosts
                   (lookupD c10_dist (vmApp1.name.dropRight 2) []) hostA.name)
             ∧ ∀ t ∈ better_than_source_candidates c10_hosts
                 (lookupD c10_dist (vmApp1.name.dropRight 2) []) hostA.name
                 (sourceCountOf c10_hosts
                   (lookupD c10_dist (vmApp1.name.dropRight 2) []) hostA.name),
                 countNameLE (currentCountOf c10_hosts
                   (lookupD c10_dist (vmApp1.name.dropRight 2) [])) b t)
        ∧ (perfect_balance_candidates c10_hosts
              (lookupD c10_dist (vmApp1.name.dropRight 2) []) hostA.name = [] →
           better_than_source_candidates c10_hosts
              (lookupD c10_dist (vmApp1.name.dropRight 2) []) hostA.name
              (sourceCountOf c10_hosts
                (lookupD c10_dist (vmApp1.name.dropRight 2) []) hostA.name) = [] →
           get_preferred_host_for_vm c10_dist [] c10_hosts vmApp1 = none)) :=
  ⟨by decide, by decide, rfl, by decide, by decide,
   c10_preferred_host_two_pass c10_dist [] c10_hosts vmApp1 hostA
     (by decide) (by decide) rfl (by decide) (by decide)⟩

end FDRS
